import Mathlib

/-!
Verification of `calculate_error_rates_using_spellcheck.py`.

The Python module computes OCR error rates for OpenITI texts: it splits a
book's text on page markers matching the regex `(PageV\d+P\d+)` (capturing
group retained, as with Python `re.split`), tokenizes every non-page
segment with a configurable token regex, applies an injected spellcheck
predicate to each token, and accumulates page-level and book-level counts.

The token regex (`ar_tok`, from the external `openiti` package) and the
spellcheck function (pyEnchant) are external collaborators; they are
modelled as opaque parameters `tokenize : String → List String`
(the list of `m.group()` results of `re.finditer(token_regex, p)`) and
`f : String → Bool` (the spellcheck predicate).

Machine integers do not occur (Python ints are unbounded, counts are `Nat`);
Python's float division of counts is modelled with `ℚ`; the
`ZeroDivisionError` raised on a token-free book is modelled with `Option`.
-/

set_option maxHeartbeats 1000000

namespace OCRSpellcheck

/-- The page-level accumulator: Python dict
`{"all": 0, "long": 0, "tok_count": 0, "page_no": ""}`. -/
structure PageErrors where
  all : Nat
  long : Nat
  tok_count : Nat
  page_no : String
deriving Repr, DecidableEq

/-- The book-level accumulator: Python dict
`{"all": 0, "long": 0, "tok_count": 0, "page_errors": []}`. -/
structure Errors where
  all : Nat
  long : Nat
  tok_count : Nat
  page_errors : List PageErrors
deriving Repr, DecidableEq

def initPage : PageErrors := ⟨0, 0, 0, ""⟩

def initErrors : Errors := ⟨0, 0, 0, []⟩

/-! ### The page-marker split, `re.split("(PageV\d+P\d+)", t)`

Implemented over `List Char`.  `\d` is modelled as an ASCII digit (the
texts use ASCII digits in page markers).  `re.split` with a capturing
group interleaves the text between markers with the markers themselves,
scanning left to right for the leftmost match; `\d+` is greedy, and since
a digit run can only be followed by a non-digit, greedy maximal-run
matching coincides with the regex semantics. -/

/-- Try to match `PageV\d+P\d+` at the head of the character list;
return the matched marker and the remaining characters. -/
def matchMarker : List Char → Option (String × List Char)
  | 'P' :: 'a' :: 'g' :: 'e' :: 'V' :: rest =>
    match List.span Char.isDigit rest with
    | ([], _) => none
    | (d1, 'P' :: r2) =>
      match List.span Char.isDigit r2 with
      | ([], _) => none
      | (d2, r3) =>
        some (String.mk ('P' :: 'a' :: 'g' :: 'e' :: 'V' :: (d1 ++ 'P' :: d2)), r3)
    | (_, _) => none
  | _ => none

/-- Scanner for `re.split("(PageV\d+P\d+)", t)`: `acc` holds (reversed) the
characters of the current inter-marker chunk.  `fuel` bounds the recursion;
it is called with the length of the text, which `matchMarker` never
increases, so the `0` case is never reached. -/
def splitAux (fuel : Nat) (s : List Char) (acc : List Char) : List String :=
  match fuel with
  | 0 => [String.mk acc.reverse]
  | Nat.succ fuel =>
    match s with
    | [] => [String.mk acc.reverse]
    | c :: rest =>
      match matchMarker (c :: rest) with
      | some (m, r) => String.mk acc.reverse :: m :: splitAux fuel r []
      | none => splitAux fuel rest (c :: acc)

/-- `re.split("(PageV\d+P\d+)", t)` (line 75 of the source). -/
def reSplit (t : String) : List String :=
  splitAux t.data.length t.data []

/-- `p.startswith("Page")` (line 77 of the source). -/
def startsWithPage (p : String) : Bool :=
  "Page".data.isPrefixOf p.data

/-! ### The counting pass of `calculate_error_rate` -/

/-- One iteration of the token loop (lines 86–97 of the source): increment
`tok_count` in both accumulators; if the spellcheck predicate rejects the
token, increment `all` in both, and additionally `long` in both when the
token length strictly exceeds the threshold. -/
def procTok (f : String → Bool) (long : Nat) (st : Errors × PageErrors)
    (tok : String) : Errors × PageErrors :=
  if f tok = false then
    if tok.length > long then
      ({ st.1 with tok_count := st.1.tok_count + 1, all := st.1.all + 1,
                   long := st.1.long + 1 },
       { st.2 with tok_count := st.2.tok_count + 1, all := st.2.all + 1,
                   long := st.2.long + 1 })
    else
      ({ st.1 with tok_count := st.1.tok_count + 1, all := st.1.all + 1 },
       { st.2 with tok_count := st.2.tok_count + 1, all := st.2.all + 1 })
  else
    ({ st.1 with tok_count := st.1.tok_count + 1 },
     { st.2 with tok_count := st.2.tok_count + 1 })

/-- One iteration of the segment loop (lines 75–97 of the source).
A segment starting with `"Page"` flushes the page accumulator (its
`page_no` is set to the segment, it is appended to `page_errors`, a fresh
accumulator is started); any other nonempty segment is tokenized and each
token processed by `procTok`; an empty segment is skipped (`if p:`). -/
def procSeg (tokenize : String → List String) (f : String → Bool) (long : Nat)
    (st : Errors × PageErrors) (p : String) : Errors × PageErrors :=
  if startsWithPage p then
    ({ st.1 with page_errors := st.1.page_errors ++ [{ st.2 with page_no := p }] },
     initPage)
  else if p = "" then st
  else (tokenize p).foldl (procTok f long) st

/-- The whole counting loop of `calculate_error_rate` over the split text. -/
def calcErrors (tokenize : String → List String) (f : String → Bool)
    (long : Nat) (t : String) : Errors × PageErrors :=
  (reSplit t).foldl (procSeg tokenize f long) (initErrors, initPage)

/-- The record returned by `calculate_error_rate`: the book accumulator
extended with the two derived rates (lines 98–104 of the source). -/
structure ErrorRecord where
  all : Nat
  long : Nat
  tok_count : Nat
  page_errors : List PageErrors
  error_rate : ℚ
  long_tokens_error_rate : ℚ
deriving Repr, DecidableEq

/-- `calculate_error_rate(t, spellcheck_func, token_regex, long)` (lines
49–104 of the source).  Python raises `ZeroDivisionError` at line 98 when
the book produced no tokens; this is the `none` case. -/
def calculate_error_rate (tokenize : String → List String) (f : String → Bool)
    (long : Nat) (t : String) : Option ErrorRecord :=
  let e := (calcErrors tokenize f long t).1
  if e.tok_count = 0 then none
  else some ⟨e.all, e.long, e.tok_count, e.page_errors,
             (e.all : ℚ) / (e.tok_count : ℚ), (e.long : ℚ) / (e.tok_count : ℚ)⟩

/-! ### A concrete "word run" tokenizer (`\w+`) for the spec's examples -/

def isWordChar (c : Char) : Bool := c.isAlphanum || c == '_'

/-- Scanner for `re.finditer("\w+", p)`: `cur` holds (reversed) the
characters of the word run currently being read. -/
def wordTokAux : List Char → List Char → List String
  | [], cur => if cur.isEmpty then [] else [String.mk cur.reverse]
  | c :: rest, cur =>
    if isWordChar c then wordTokAux rest (c :: cur)
    else if cur.isEmpty then wordTokAux rest []
    else String.mk cur.reverse :: wordTokAux rest []

/-- Token pattern "matching word runs" (`\w+`, ASCII), used by the spec's
worked example. -/
def wordTokenize (p : String) : List String :=
  wordTokAux p.data []

/-- Full-match test for the page-marker regex `PageV\d+P\d+`:
this is what "the segment is a page marker" means. -/
def isMarker (p : String) : Bool :=
  match matchMarker p.data with
  | some (_, rest) => rest.isEmpty
  | none => false

/-! ### Declarative token counts -/

/-- Number of tokens of a list that the spellcheck predicate rejects. -/
def errCount (f : String → Bool) (toks : List String) : Nat :=
  toks.countP (fun tok => !f tok)

/-- Number of rejected tokens whose length strictly exceeds the threshold. -/
def longErrCount (f : String → Bool) (long : Nat) (toks : List String) : Nat :=
  toks.countP (fun tok => !f tok && decide (long < tok.length))

/-- The tokens the loop actually draws from a segment: none for the empty
segment (the `if p:` guard), otherwise the tokenizer's matches. -/
def segTokens (tokenize : String → List String) (p : String) : List String :=
  if p = "" then [] else tokenize p

/-- All tokens processed at book level: those of the segments that do not
start with `"Page"`. -/
def bookTokens (tokenize : String → List String) (segs : List String) :
    List String :=
  (segs.filter (fun p => !startsWithPage p)).flatMap (segTokens tokenize)

/-- Closed form of the token loop: both accumulators get the same
increments — the token count, the rejected count, and the long rejected
count of the processed token list — and the other fields are untouched. -/
theorem tokfold_eq (f : String → Bool) (long : Nat) (toks : List String) :
    ∀ st : Errors × PageErrors,
      toks.foldl (procTok f long) st =
        ({ st.1 with tok_count := st.1.tok_count + toks.length,
                     all := st.1.all + errCount f toks,
                     long := st.1.long + longErrCount f long toks },
         { st.2 with tok_count := st.2.tok_count + toks.length,
                     all := st.2.all + errCount f toks,
                     long := st.2.long + longErrCount f long toks }) := by
  induction toks with
  | nil =>
    intro st
    obtain ⟨⟨ea, el, et, ep⟩, ⟨pa, pl, pt, pn⟩⟩ := st
    simp [errCount, longErrCount]
  | cons tok toks ih =>
    intro st
    obtain ⟨⟨ea, el, et, ep⟩, ⟨pa, pl, pt, pn⟩⟩ := st
    rw [List.foldl_cons, ih]
    cases hf : f tok with
    | false =>
      by_cases hl : long < tok.length
      · simp [procTok, hf, hl, errCount, longErrCount, List.countP_cons]
        omega
      · simp [procTok, hf, hl, errCount, longErrCount, List.countP_cons]
        omega
    | true =>
      simp [procTok, hf, errCount, longErrCount, List.countP_cons]
      omega

/-- A segment that does not start with `"Page"` is processed by folding
`procTok` over its tokens (none when the segment is empty). -/
theorem procSeg_nonpage (tokenize : String → List String) (f : String → Bool)
    (long : Nat) (st : Errors × PageErrors) (p : String)
    (hp : startsWithPage p = false) :
    procSeg tokenize f long st p = (segTokens tokenize p).foldl (procTok f long) st := by
  by_cases he : p = ""
  · subst he
    simp [procSeg, segTokens, hp]
  · simp [procSeg, segTokens, hp, he]

/-- Closed form of the book-level counters after the segment loop: they
grow by the declarative counts of `bookTokens`. -/
theorem segfold_book (tokenize : String → List String) (f : String → Bool)
    (long : Nat) (segs : List String) :
    ∀ st : Errors × PageErrors,
      ((segs.foldl (procSeg tokenize f long) st).1.tok_count
          = st.1.tok_count + (bookTokens tokenize segs).length)
      ∧ ((segs.foldl (procSeg tokenize f long) st).1.all
          = st.1.all + errCount f (bookTokens tokenize segs))
      ∧ ((segs.foldl (procSeg tokenize f long) st).1.long
          = st.1.long + longErrCount f long (bookTokens tokenize segs)) := by
  induction segs with
  | nil => intro st; simp [bookTokens, errCount, longErrCount]
  | cons p ps ih =>
    intro st
    cases hp : startsWithPage p with
    | true =>
      rw [List.foldl_cons]
      have hstep : procSeg tokenize f long st p =
          ({ st.1 with page_errors := st.1.page_errors ++ [{ st.2 with page_no := p }] },
           initPage) := by
        simp [procSeg, hp]
      rw [hstep]
      have hbt : bookTokens tokenize (p :: ps) = bookTokens tokenize ps := by
        simp [bookTokens, hp]
      rw [hbt]
      exact ih _
    | false =>
      rw [List.foldl_cons, procSeg_nonpage tokenize f long st p hp, tokfold_eq]
      have hbt : bookTokens tokenize (p :: ps)
          = segTokens tokenize p ++ bookTokens tokenize ps := by
        simp [bookTokens, hp]
      obtain ⟨ih1, ih2, ih3⟩ := ih
        ({ st.1 with tok_count := st.1.tok_count + (segTokens tokenize p).length,
                     all := st.1.all + errCount f (segTokens tokenize p),
                     long := st.1.long + longErrCount f long (segTokens tokenize p) },
         { st.2 with tok_count := st.2.tok_count + (segTokens tokenize p).length,
                     all := st.2.all + errCount f (segTokens tokenize p),
                     long := st.2.long + longErrCount f long (segTokens tokenize p) })
      rw [ih1, ih2, ih3, hbt]
      simp [errCount, longErrCount, List.countP_append]
      omega

/-! ### Declarative description of the page list -/

/-- Componentwise addition of counters (the page identifier of the first
argument is kept). -/
def addCounts (acc : PageErrors) (s : PageErrors) : PageErrors :=
  ⟨acc.all + s.all, acc.long + s.long, acc.tok_count + s.tok_count, acc.page_no⟩

/-- The declarative per-segment counts. -/
def segStats (tokenize : String → List String) (f : String → Bool)
    (long : Nat) (p : String) : PageErrors :=
  ⟨errCount f (segTokens tokenize p), longErrCount f long (segTokens tokenize p),
   (segTokens tokenize p).length, ""⟩

/-- Declarative description of the page list: walking the segments, a
segment starting with `"Page"` emits an entry labelled with that segment
and carrying the counts accumulated since the previous such segment (or
the start); any other segment adds its token counts to the running
accumulator.  Counts accumulated after the last `"Page"`-initial segment
are never emitted. -/
def pagesOfAux (tokenize : String → List String) (f : String → Bool)
    (long : Nat) (acc : PageErrors) : List String → List PageErrors
  | [] => []
  | p :: ps =>
    if startsWithPage p then
      { acc with page_no := p } :: pagesOfAux tokenize f long initPage ps
    else
      pagesOfAux tokenize f long (addCounts acc (segStats tokenize f long p)) ps

/-- The page list produced by the segment loop is exactly the declarative
one. -/
theorem segfold_pages (tokenize : String → List String) (f : String → Bool)
    (long : Nat) (segs : List String) :
    ∀ (e : Errors) (pe : PageErrors),
      (segs.foldl (procSeg tokenize f long) (e, pe)).1.page_errors
        = e.page_errors ++ pagesOfAux tokenize f long pe segs := by
  induction segs with
  | nil => intro e pe; simp [pagesOfAux]
  | cons p ps ih =>
    intro e pe
    cases hp : startsWithPage p with
    | true =>
      rw [List.foldl_cons]
      have hstep : procSeg tokenize f long (e, pe) p =
          ({ e with page_errors := e.page_errors ++ [{ pe with page_no := p }] },
           initPage) := by
        simp [procSeg, hp]
      rw [hstep, ih]
      simp [pagesOfAux, hp]
    | false =>
      rw [List.foldl_cons, procSeg_nonpage tokenize f long (e, pe) p hp, tokfold_eq]
      rw [ih]
      have hacc : addCounts pe (segStats tokenize f long p) =
          { pe with tok_count := pe.tok_count + (segTokens tokenize p).length,
                    all := pe.all + errCount f (segTokens tokenize p),
                    long := pe.long + longErrCount f long (segTokens tokenize p) } := by
        simp [addCounts, segStats]
      simp [pagesOfAux, hp, hacc]

/-! ### The running invariant -/

/-- Sum of the token counts recorded in a page list. -/
def sumTok (l : List PageErrors) : Nat := (l.map PageErrors.tok_count).sum

/-- Invariant of the counting loop: `long ≤ all ≤ tok_count` in the book
accumulator, in the page accumulator and in every recorded page, and the
recorded page token counts together with the running page account exactly
for the book token count. -/
def goodState (st : Errors × PageErrors) : Prop :=
  st.1.long ≤ st.1.all ∧ st.1.all ≤ st.1.tok_count ∧
  st.2.long ≤ st.2.all ∧ st.2.all ≤ st.2.tok_count ∧
  (∀ q ∈ st.1.page_errors, q.long ≤ q.all ∧ q.all ≤ q.tok_count) ∧
  sumTok st.1.page_errors + st.2.tok_count = st.1.tok_count

theorem goodState_init : goodState (initErrors, initPage) := by
  simp [goodState, initErrors, initPage, sumTok]

theorem longErrCount_le_errCount (f : String → Bool) (long : Nat)
    (toks : List String) : longErrCount f long toks ≤ errCount f toks := by
  apply List.countP_mono_left
  intro x _ hx
  exact (Bool.and_eq_true _ _ |>.mp hx).1

theorem errCount_le_length (f : String → Bool) (toks : List String) :
    errCount f toks ≤ toks.length :=
  List.countP_le_length _

theorem goodState_tokfold (f : String → Bool) (long : Nat) (toks : List String)
    (st : Errors × PageErrors) (h : goodState st) :
    goodState (toks.foldl (procTok f long) st) := by
  obtain ⟨⟨ea, el, et, ep⟩, ⟨pa, pl, pt, pn⟩⟩ := st
  obtain ⟨h1, h2, h3, h4, h5, h6⟩ := h
  rw [tokfold_eq]
  have hc1 := longErrCount_le_errCount f long toks
  have hc2 := errCount_le_length f toks
  simp only [goodState, sumTok] at *
  exact ⟨by omega, by omega, by omega, by omega, h5, by omega⟩

theorem goodState_procSeg (tokenize : String → List String) (f : String → Bool)
    (long : Nat) (st : Errors × PageErrors) (p : String) (h : goodState st) :
    goodState (procSeg tokenize f long st p) := by
  cases hp : startsWithPage p with
  | true =>
    obtain ⟨⟨ea, el, et, ep⟩, ⟨pa, pl, pt, pn⟩⟩ := st
    obtain ⟨h1, h2, h3, h4, h5, h6⟩ := h
    have hstep : procSeg tokenize f long (⟨ea, el, et, ep⟩, ⟨pa, pl, pt, pn⟩) p =
        ({ all := ea, long := el, tok_count := et,
           page_errors := ep ++ [⟨pa, pl, pt, p⟩] }, initPage) := by
      simp [procSeg, hp]
    rw [hstep]
    refine ⟨h1, h2, by simp [initPage], by simp [initPage], ?_, ?_⟩
    · intro q hq
      rcases List.mem_append.mp hq with hq | hq
      · exact h5 q hq
      · simp at hq
        subst hq
        exact ⟨h3, h4⟩
    · simp [sumTok, initPage] at *
      omega
  | false =>
    rw [procSeg_nonpage tokenize f long st p hp]
    exact goodState_tokfold f long _ st h

theorem goodState_segfold (tokenize : String → List String) (f : String → Bool)
    (long : Nat) (segs : List String) :
    ∀ st : Errors × PageErrors, goodState st →
      goodState (segs.foldl (procSeg tokenize f long) st) := by
  induction segs with
  | nil => intro st h; exact h
  | cons p ps ih =>
    intro st h
    rw [List.foldl_cons]
    exact ih _ (goodState_procSeg tokenize f long st p h)

theorem goodState_calc (tokenize : String → List String) (f : String → Bool)
    (long : Nat) (t : String) : goodState (calcErrors tokenize f long t) :=
  goodState_segfold tokenize f long (reSplit t) _ goodState_init

/-! ### `collect_spellcheck_error_data_in_file` (lines 106–144 of the source)

The function works on a JSON-like per-book record whose `page_errors` key
may be present or absent (`del` removes it); this is `Option` in
`BookData`.  The surrounding file system is passed in explicitly: the
content of the input file, whether the per-book output file exists, and
its parsed content when it does.  The result carries the final state of
the `error_data` dict (modelled as an association list with Python dict
update semantics), the content written to the output file, if any, and
the way the call ended: normally, with the `ZeroDivisionError` that
`calculate_error_rate` raises on a token-free book, or with the
`KeyError` that `del` raises when the loaded record has no `page_errors`
key.  On an exception the other two fields hold the state at the moment
it propagates. -/

/-- A per-book record as stored in `error_data` and in the per-book JSON
file; `page_errors = none` models an absent key. -/
structure BookData where
  all : Nat
  long : Nat
  tok_count : Nat
  error_rate : ℚ
  long_tokens_error_rate : ℚ
  page_errors : Option (List PageErrors)
deriving Repr, DecidableEq

inductive Outcome where
  | ok
  | zeroDiv
  | keyError
deriving Repr, DecidableEq

structure CollectResult where
  outcome : Outcome
  error_data : List (String × BookData)
  written : Option BookData
deriving Repr, DecidableEq

/-- `error_data[k] = v` with Python dict semantics: replace the value of
an existing key in place, otherwise append the new binding. -/
def setEntry : List (String × BookData) → String → BookData →
    List (String × BookData)
  | [], k, v => [(k, v)]
  | kv :: rest, k, v =>
    if kv.1 == k then (k, v) :: rest else kv :: setEntry rest k v

/-- `error_data[k]` (as an `Option`). -/
def lookupEntry : List (String × BookData) → String → Option BookData
  | [], _ => none
  | kv :: rest, k => if kv.1 == k then some kv.2 else lookupEntry rest k

theorem lookupEntry_setEntry (m : List (String × BookData)) (k : String)
    (v : BookData) : lookupEntry (setEntry m k v) k = some v := by
  induction m with
  | nil => simp [setEntry, lookupEntry]
  | cons kv rest ih =>
    by_cases h : kv.1 == k
    · simp [setEntry, lookupEntry, h]
    · simp [setEntry, lookupEntry, h, ih]

theorem setEntry_of_absent (m : List (String × BookData)) (k : String)
    (v : BookData) (h : lookupEntry m k = none) :
    setEntry m k v = m ++ [(k, v)] := by
  induction m with
  | nil => simp [setEntry]
  | cons kv rest ih =>
    by_cases hk : kv.1 == k
    · simp [lookupEntry, hk] at h
    · simp [lookupEntry, hk] at h
      simp [setEntry, hk, ih h]

/-- `"#META#Header#End"`, the metadata end marker (line 130 of the
source). -/
def headerEnd : List Char := "#META#Header#End".data

/-- The suffix after the last occurrence of the header end marker, if the
marker occurs.  (The marker has no nonempty border, so occurrences cannot
overlap and the rightmost occurrence is also the last one found by
Python's left-to-right non-overlapping scan.) -/
def afterLastHeaderAux : List Char → Option (List Char)
  | [] => none
  | c :: rest =>
    match afterLastHeaderAux rest with
    | some x => some x
    | none =>
      if headerEnd.isPrefixOf (c :: rest) then
        some (List.drop headerEnd.length (c :: rest))
      else none

/-- `t.split("#META#Header#End")[-1]` (line 130 of the source). -/
def splitOffHeader (t : String) : String :=
  match afterLastHeaderAux t.data with
  | some x => String.mk x
  | none => t

/-- `collect_spellcheck_error_data_in_file` (lines 106–144 of the
source).  `v_uri` is `os.path.basename(fp)`; `fileContent` the content of
`fp`; `outfpExists` whether the per-book JSON file exists; `cached` its
parsed content (only consulted on the reuse path).  `tokenize`, `f` and
`long` stand for the module defaults `ar_tok`, `check_with_pyEnchant` and
`8` that `calculate_error_rate(t)` is called with. -/
def collect_spellcheck_error_data_in_file (tokenize : String → List String)
    (f : String → Bool) (long : Nat) (fileContent : String)
    (outfpExists : Bool) (cached : BookData) (overwrite : Bool)
    (error_data : List (String × BookData)) (v_uri : String) : CollectResult :=
  if overwrite || !outfpExists then
    match calculate_error_rate tokenize f long (splitOffHeader fileContent) with
    | none => ⟨Outcome.zeroDiv, error_data, none⟩
    | some r =>
      let b : BookData := ⟨r.all, r.long, r.tok_count, r.error_rate,
                           r.long_tokens_error_rate, some r.page_errors⟩
      ⟨Outcome.ok,
       setEntry (setEntry error_data v_uri b) v_uri { b with page_errors := none },
       some b⟩
  else
    match cached.page_errors with
    | none => ⟨Outcome.keyError, setEntry error_data v_uri cached, none⟩
    | some _ =>
      ⟨Outcome.ok,
       setEntry (setEntry error_data v_uri cached) v_uri
         { cached with page_errors := none },
       none⟩

/-! ### The claims -/

/-- C1: whenever `calculate_error_rate` returns a record (the token count
being positive), its `error_rate` is `all / tok_count`, its
`long_tokens_error_rate` is `long / tok_count`, and both rates lie in
`[0, 1]`. -/
theorem C1_rates_defined_and_bounded (tokenize : String → List String)
    (f : String → Bool) (long : Nat) (t : String) (r : ErrorRecord)
    (h : calculate_error_rate tokenize f long t = some r) :
    r.error_rate = (r.all : ℚ) / (r.tok_count : ℚ) ∧
    r.long_tokens_error_rate = (r.long : ℚ) / (r.tok_count : ℚ) ∧
    0 ≤ r.error_rate ∧ r.error_rate ≤ 1 ∧
    0 ≤ r.long_tokens_error_rate ∧ r.long_tokens_error_rate ≤ 1 := by
  have hg := goodState_calc tokenize f long t
  unfold calculate_error_rate at h
  set e := (calcErrors tokenize f long t).1 with he
  by_cases h0 : e.tok_count = 0
  · simp [h0] at h
  · simp only [h0, if_false, if_neg h0, Option.some.injEq] at h
    obtain ⟨h1, h2, -, -, -, -⟩ := hg
    rw [← he] at h1 h2
    have hpos : (0 : ℚ) < (e.tok_count : ℚ) := by
      exact_mod_cast Nat.pos_of_ne_zero h0
    subst h
    refine ⟨rfl, rfl, ?_, ?_, ?_, ?_⟩
    · exact div_nonneg (Nat.cast_nonneg _) (le_of_lt hpos)
    · exact (div_le_one hpos).mpr (by exact_mod_cast h2)
    · exact div_nonneg (Nat.cast_nonneg _) (le_of_lt hpos)
    · exact (div_le_one hpos).mpr (by exact_mod_cast le_trans h1 h2)

def c1res : ErrorRecord := ⟨0, 0, 1, [], 0, 0⟩

theorem c1res_eval :
    calculate_error_rate wordTokenize (fun _ => true) 8 "ab" = some c1res := by
  have h : (calcErrors wordTokenize (fun _ => true) 8 "ab").1 = ⟨0, 0, 1, []⟩ := by
    decide
  simp only [calculate_error_rate, h]
  norm_num [c1res]

theorem C1_witness :
    calculate_error_rate wordTokenize (fun _ => true) 8 "ab" = some c1res ∧
    (c1res.error_rate = (c1res.all : ℚ) / (c1res.tok_count : ℚ) ∧
     c1res.long_tokens_error_rate = (c1res.long : ℚ) / (c1res.tok_count : ℚ) ∧
     0 ≤ c1res.error_rate ∧ c1res.error_rate ≤ 1 ∧
     0 ≤ c1res.long_tokens_error_rate ∧ c1res.long_tokens_error_rate ≤ 1) :=
  ⟨c1res_eval,
   C1_rates_defined_and_bounded wordTokenize (fun _ => true) 8 "ab" c1res c1res_eval⟩

/-- C6: the record returned by `calculate_error_rate` satisfies
`long ≤ all` at book level and in every page entry, and one token step
preserves `long ≤ all` in both accumulators. -/
theorem C6_long_le_all (tokenize : String → List String) (f : String → Bool)
    (long : Nat) (t : String) (r : ErrorRecord)
    (h : calculate_error_rate tokenize f long t = some r) :
    r.long ≤ r.all ∧ (∀ q ∈ r.page_errors, q.long ≤ q.all) ∧
    (∀ (st : Errors × PageErrors) (tok : String),
      st.1.long ≤ st.1.all ∧ st.2.long ≤ st.2.all →
      (procTok f long st tok).1.long ≤ (procTok f long st tok).1.all ∧
      (procTok f long st tok).2.long ≤ (procTok f long st tok).2.all) := by
  have hg := goodState_calc tokenize f long t
  unfold calculate_error_rate at h
  set e := (calcErrors tokenize f long t).1 with he
  by_cases h0 : e.tok_count = 0
  · simp [h0] at h
  · simp only [h0, if_false, if_neg h0, Option.some.injEq] at h
    obtain ⟨h1, -, -, -, h5, -⟩ := hg
    rw [← he] at h1 h5
    subst h
    refine ⟨h1, fun q hq => (h5 q hq).1, ?_⟩
    intro st tok hst
    obtain ⟨⟨ea, el, et, ep⟩, ⟨pa, pl, pt, pn⟩⟩ := st
    obtain ⟨hs1, hs2⟩ := hst
    dsimp only at hs1 hs2
    simp only [procTok]
    by_cases hf : f tok = false
    · by_cases hl : tok.length > long
      · simp [hf, hl]; omega
      · simp [hf, hl]; omega
    · simp [hf]; omega

theorem C6_witness :
    calculate_error_rate wordTokenize (fun tok => !(tok == "ab")) 8 "ab cd" =
      some ⟨1, 0, 2, [], 1/2, 0⟩ ∧
    ((⟨1, 0, 2, [], 1/2, 0⟩ : ErrorRecord).long ≤
        (⟨1, 0, 2, [], 1/2, 0⟩ : ErrorRecord).all ∧
     (∀ q ∈ (⟨1, 0, 2, [], 1/2, 0⟩ : ErrorRecord).page_errors,
        q.long ≤ q.all) ∧
     (∀ (st : Errors × PageErrors) (tok : String),
        st.1.long ≤ st.1.all ∧ st.2.long ≤ st.2.all →
        (procTok (fun tok => !(tok == "ab")) 8 st tok).1.long ≤
          (procTok (fun tok => !(tok == "ab")) 8 st tok).1.all ∧
        (procTok (fun tok => !(tok == "ab")) 8 st tok).2.long ≤
          (procTok (fun tok => !(tok == "ab")) 8 st tok).2.all)) := by
  have hev : calculate_error_rate wordTokenize (fun tok => !(tok == "ab")) 8 "ab cd" =
      some ⟨1, 0, 2, [], 1/2, 0⟩ := by
    have h : (calcErrors wordTokenize (fun tok => !(tok == "ab")) 8 "ab cd").1 =
        ⟨1, 0, 2, []⟩ := by decide
    simp only [calculate_error_rate, h]
    norm_num
  exact ⟨hev, C6_long_le_all wordTokenize (fun tok => !(tok == "ab")) 8 "ab cd" _ hev⟩

/-- C7: the page token counts recorded in the returned record sum to at
most the book token count. -/
theorem C7_page_sum_le_book (tokenize : String → List String)
    (f : String → Bool) (long : Nat) (t : String) (r : ErrorRecord)
    (h : calculate_error_rate tokenize f long t = some r) :
    sumTok r.page_errors ≤ r.tok_count := by
  have hg := goodState_calc tokenize f long t
  unfold calculate_error_rate at h
  set e := (calcErrors tokenize f long t).1 with he
  by_cases h0 : e.tok_count = 0
  · simp [h0] at h
  · simp only [h0, if_false, if_neg h0, Option.some.injEq] at h
    obtain ⟨-, -, -, -, -, h6⟩ := hg
    rw [← he] at h6
    subst h
    simp only
    omega

theorem C7_witness :
    calculate_error_rate wordTokenize (fun _ => true) 8 "a PageV1P1 b c" =
      some ⟨0, 0, 3, [⟨0, 0, 1, "PageV1P1"⟩], 0, 0⟩ ∧
    sumTok (⟨0, 0, 3, [⟨0, 0, 1, "PageV1P1"⟩], 0, 0⟩ : ErrorRecord).page_errors ≤
      (⟨0, 0, 3, [⟨0, 0, 1, "PageV1P1"⟩], 0, 0⟩ : ErrorRecord).tok_count := by
  have hev : calculate_error_rate wordTokenize (fun _ => true) 8 "a PageV1P1 b c" =
      some ⟨0, 0, 3, [⟨0, 0, 1, "PageV1P1"⟩], 0, 0⟩ := by
    have h : (calcErrors wordTokenize (fun _ => true) 8 "a PageV1P1 b c").1 =
        ⟨0, 0, 3, [⟨0, 0, 1, "PageV1P1"⟩]⟩ := by decide
    simp only [calculate_error_rate, h]
    norm_num
  exact ⟨hev, C7_page_sum_le_book wordTokenize (fun _ => true) 8 "a PageV1P1 b c" _ hev⟩

/-- C8: one token step increments the `long` counters of both accumulators
by one exactly when the spellcheck predicate returns `false` for the token
and the token length strictly exceeds the threshold, and leaves them
unchanged otherwise (in particular for every recognized token, however
long). -/
theorem C8_long_increment_iff (f : String → Bool) (long : Nat)
    (st : Errors × PageErrors) (tok : String) :
    (procTok f long st tok).1.long
      = st.1.long + (if f tok = false ∧ long < tok.length then 1 else 0) ∧
    (procTok f long st tok).2.long
      = st.2.long + (if f tok = false ∧ long < tok.length then 1 else 0) := by
  obtain ⟨⟨ea, el, et, ep⟩, ⟨pa, pl, pt, pn⟩⟩ := st
  by_cases hf : f tok = false
  · by_cases hl : long < tok.length
    · simp [procTok, hf, hl]
    · simp [procTok, hf, hl]
  · simp [procTok, hf]

/-- C4 (counterexample): the text `"PageV1P1"` contains a match of the
word-run token pattern, yet `calculate_error_rate` still fails with the
division-by-zero error (the only match lies inside the page marker, so it
is never tokenized). -/
theorem C4_counterexample :
    wordTokenize "PageV1P1" = ["PageV1P1"] ∧
    calculate_error_rate wordTokenize (fun _ => true) 8 "PageV1P1" = none := by
  constructor
  · decide
  · decide

/-- C4 (amended): `calculate_error_rate` fails with the division-by-zero
error exactly when the token pattern has zero matches in the tokenized
segments — the split segments that do not start with `"Page"`; matches
lying inside page markers (or other `"Page"`-initial segments) do not
prevent the failure. -/
theorem C4_zero_division_iff (tokenize : String → List String)
    (f : String → Bool) (long : Nat) (t : String) :
    calculate_error_rate tokenize f long t = none ↔
      (bookTokens tokenize (reSplit t)).length = 0 := by
  have hb := (segfold_book tokenize f long (reSplit t) (initErrors, initPage)).1
  have he : (calcErrors tokenize f long t).1.tok_count
      = (bookTokens tokenize (reSplit t)).length := by
    simpa [calcErrors, initErrors] using hb
  simp only [calculate_error_rate, he]
  by_cases h0 : (bookTokens tokenize (reSplit t)).length = 0
  · simp [h0]
  · simp [h0]

/-- The record actually produced on the spec's worked example. -/
def c2res : ErrorRecord :=
  ⟨1, 0, 3, [⟨0, 0, 0, "PageV01P001"⟩, ⟨0, 0, 2, "PageV01P002"⟩], 1/3, 0⟩

theorem c2res_eval :
    calculate_error_rate wordTokenize (fun tok => !(tok == "foo")) 8
      "PageV01P001hello world PageV01P002foo" = some c2res := by
  have h : (calcErrors wordTokenize (fun tok => !(tok == "foo")) 8
      "PageV01P001hello world PageV01P002foo").1 =
      ⟨1, 0, 3, [⟨0, 0, 0, "PageV01P001"⟩, ⟨0, 0, 2, "PageV01P002"⟩]⟩ := by
    decide
  simp only [calculate_error_rate, h]
  norm_num [c2res]

/-- C2 (counterexample): on the spec's worked example the page list has
two entries, not one, and the single claimed entry
`{page_no := "PageV01P001", tok_count := 2, all := 0, long := 0}` is not
the page list: each marker flushes the counts of the text before it, so
"hello world" is recorded under the second marker and the first marker
gets an empty page. -/
theorem C2_counterexample :
    calculate_error_rate wordTokenize (fun tok => !(tok == "foo")) 8
      "PageV01P001hello world PageV01P002foo" = some c2res ∧
    c2res.page_errors.length = 2 ∧
    c2res.page_errors ≠ [⟨0, 0, 2, "PageV01P001"⟩] :=
  ⟨c2res_eval, by decide, by decide⟩

/-- C2 (amended): on the text `"PageV01P001hello world PageV01P002foo"`
with the word-run tokenizer, a predicate rejecting exactly `"foo"` and
threshold `8`, `calculate_error_rate` returns book totals `tok_count = 3`,
`all = 1`, `long = 0`, and a `page_errors` list with exactly two entries:
`{page_no := "PageV01P001", tok_count := 0, all := 0, long := 0}` (flushed
with the counts of the empty text before the first marker) and
`{page_no := "PageV01P002", tok_count := 2, all := 0, long := 0}` (the
two tokens before the second marker); `"foo"` follows the last marker and
is counted only in the book totals. -/
theorem C2_worked_example :
    calculate_error_rate wordTokenize (fun tok => !(tok == "foo")) 8
      "PageV01P001hello world PageV01P002foo" = some c2res ∧
    c2res.tok_count = 3 ∧ c2res.all = 1 ∧ c2res.long = 0 ∧
    c2res.page_errors = [⟨0, 0, 0, "PageV01P001"⟩, ⟨0, 0, 2, "PageV01P002"⟩] :=
  ⟨c2res_eval, rfl, rfl, rfl, rfl⟩

/-- The record produced on the text exhibiting a non-marker segment that
starts with `"Page"`. -/
def c3res : ErrorRecord :=
  ⟨0, 0, 1, [⟨0, 0, 1, "PageV1P1"⟩, ⟨0, 0, 0, "Pagex b"⟩], 0, 0⟩

theorem c3res_eval :
    calculate_error_rate wordTokenize (fun _ => true) 8 "a PageV1P1Pagex b" =
      some c3res := by
  have h : (calcErrors wordTokenize (fun _ => true) 8 "a PageV1P1Pagex b").1 =
      ⟨0, 0, 1, [⟨0, 0, 1, "PageV1P1"⟩, ⟨0, 0, 0, "Pagex b"⟩]⟩ := by
    decide
  simp only [calculate_error_rate, h]
  norm_num [c3res]

/-- C3 (counterexample): in the text `"a PageV1P1Pagex b"` the split
yields the segment `"Pagex b"`, which is not a page marker and contains
two token matches, yet the returned record has `tok_count = 1`: the
segment was treated as a page flush (the code tests
`p.startswith("Page")`, not marker-hood) and its tokens were skipped. -/
theorem C3_counterexample :
    reSplit "a PageV1P1Pagex b" = ["a ", "PageV1P1", "Pagex b"] ∧
    isMarker "Pagex b" = false ∧
    wordTokenize "Pagex b" = ["Pagex", "b"] ∧
    calculate_error_rate wordTokenize (fun _ => true) 8 "a PageV1P1Pagex b" =
      some c3res ∧
    c3res.tok_count = 1 ∧
    c3res.page_errors = [⟨0, 0, 1, "PageV1P1"⟩, ⟨0, 0, 0, "Pagex b"⟩] :=
  ⟨by decide, by decide, by decide, c3res_eval, rfl, rfl⟩

/-- C3 (amended): for every split segment that does not start with the
literal `"Page"`, every match of the token pattern in the segment
increments the page and book accumulators identically (token count,
rejected count, long rejected count), and no such segment's tokens are
skipped; segments starting with `"Page"` — markers or not — are instead
treated as page flushes and are never tokenized. -/
theorem C3_nonpage_segment_counts (tokenize : String → List String)
    (f : String → Bool) (long : Nat) (st : Errors × PageErrors) (p : String)
    (hp : startsWithPage p = false) :
    procSeg tokenize f long st p =
      ({ st.1 with tok_count := st.1.tok_count + (segTokens tokenize p).length,
                   all := st.1.all + errCount f (segTokens tokenize p),
                   long := st.1.long + longErrCount f long (segTokens tokenize p) },
       { st.2 with tok_count := st.2.tok_count + (segTokens tokenize p).length,
                   all := st.2.all + errCount f (segTokens tokenize p),
                   long := st.2.long + longErrCount f long (segTokens tokenize p) }) := by
  rw [procSeg_nonpage tokenize f long st p hp, tokfold_eq]

theorem C3_witness :
    startsWithPage "b c" = false ∧
    procSeg wordTokenize (fun _ => true) 8 (initErrors, initPage) "b c" =
      (⟨0, 0, 2, []⟩, ⟨0, 0, 2, ""⟩) :=
  ⟨by decide,
   C3_nonpage_segment_counts wordTokenize (fun _ => true) 8
     (initErrors, initPage) "b c" (by decide)⟩

/-- The record produced on the text where a `"Page"`-initial non-marker
segment sits between two genuine markers. -/
def c9res : ErrorRecord :=
  ⟨0, 0, 1,
   [⟨0, 0, 1, "PageV1P1"⟩, ⟨0, 0, 0, "Pagex b c"⟩, ⟨0, 0, 0, "PageV2P2"⟩],
   0, 0⟩

theorem c9res_eval :
    calculate_error_rate wordTokenize (fun _ => true) 8
      "a PageV1P1Pagex b cPageV2P2" = some c9res := by
  have h : (calcErrors wordTokenize (fun _ => true) 8
      "a PageV1P1Pagex b cPageV2P2").1 =
      ⟨0, 0, 1,
       [⟨0, 0, 1, "PageV1P1"⟩, ⟨0, 0, 0, "Pagex b c"⟩, ⟨0, 0, 0, "PageV2P2"⟩]⟩ := by
    decide
  simp only [calculate_error_rate, h]
  norm_num [c9res]

/-- C9 (counterexample): in `"a PageV1P1Pagex b cPageV2P2"` the segment
`"Pagex b c"` between the two genuine markers contains three token
matches, yet the entry appended at the marker `"PageV2P2"` carries zero
counts: the intervening `"Page"`-initial non-marker segment flushed the
accumulator and its tokens were skipped, so the entry at a marker does
not carry the counts of the text since the previous marker. -/
theorem C9_counterexample :
    reSplit "a PageV1P1Pagex b cPageV2P2" =
      ["a ", "PageV1P1", "Pagex b c", "PageV2P2", ""] ∧
    isMarker "PageV1P1" = true ∧ isMarker "PageV2P2" = true ∧
    isMarker "Pagex b c" = false ∧
    (wordTokenize "Pagex b c").length = 3 ∧
    calculate_error_rate wordTokenize (fun _ => true) 8
      "a PageV1P1Pagex b cPageV2P2" = some c9res ∧
    c9res.page_errors =
      [⟨0, 0, 1, "PageV1P1"⟩, ⟨0, 0, 0, "Pagex b c"⟩, ⟨0, 0, 0, "PageV2P2"⟩] :=
  ⟨by decide, by decide, by decide, by decide, by decide, c9res_eval, rfl⟩

/-- C9 (amended): the page list of the returned record is exactly the
declarative `pagesOfAux` walk: each entry is emitted at a segment starting
with `"Page"` (a marker, or any segment that happens to begin with
`"Page"`), is labelled with that segment, and carries the token and error
counts of the non-`"Page"`-initial segments since the previous such
segment (or the start of the text); in particular tokens before the first
flush boundary are recorded in the first entry, and counts after the last
boundary are never emitted. -/
theorem C9_page_entries (tokenize : String → List String) (f : String → Bool)
    (long : Nat) (t : String) (r : ErrorRecord)
    (h : calculate_error_rate tokenize f long t = some r) :
    r.page_errors = pagesOfAux tokenize f long initPage (reSplit t) := by
  have hp := segfold_pages tokenize f long (reSplit t) initErrors initPage
  unfold calculate_error_rate at h
  set e := (calcErrors tokenize f long t).1 with he
  by_cases h0 : e.tok_count = 0
  · simp [h0] at h
  · simp only [h0, if_false, if_neg h0, Option.some.injEq] at h
    subst h
    show e.page_errors = _
    rw [he]
    simpa [calcErrors, initErrors] using hp

theorem C9_witness :
    calculate_error_rate wordTokenize (fun _ => true) 8 "x PageV1P1" =
      some ⟨0, 0, 1, [⟨0, 0, 1, "PageV1P1"⟩], 0, 0⟩ ∧
    (⟨0, 0, 1, [⟨0, 0, 1, "PageV1P1"⟩], 0, 0⟩ : ErrorRecord).page_errors =
      pagesOfAux wordTokenize (fun _ => true) 8 initPage (reSplit "x PageV1P1") := by
  have hev : calculate_error_rate wordTokenize (fun _ => true) 8 "x PageV1P1" =
      some ⟨0, 0, 1, [⟨0, 0, 1, "PageV1P1"⟩], 0, 0⟩ := by
    have h : (calcErrors wordTokenize (fun _ => true) 8 "x PageV1P1").1 =
        ⟨0, 0, 1, [⟨0, 0, 1, "PageV1P1"⟩]⟩ := by decide
    simp only [calculate_error_rate, h]
    norm_num
  exact ⟨hev, C9_page_entries wordTokenize (fun _ => true) 8 "x PageV1P1" _ hev⟩

/-- C5: whenever `collect_spellcheck_error_data_in_file` returns normally
— on the recompute path or on the cache-reuse path — the entry it leaves
in the in-memory `error_data` mapping has no `page_errors` key, while the
per-book file written on the recompute path does contain the page list;
the stripping changes no other key of the entry (the entry is the
computed, resp. loaded, record with exactly the `page_errors` key
removed). -/
theorem C5_page_errors_stripped (tokenize : String → List String)
    (f : String → Bool) (long : Nat) (fileContent : String)
    (outfpExists : Bool) (cached : BookData) (overwrite : Bool)
    (error_data : List (String × BookData)) (v_uri : String)
    (res : CollectResult)
    (hres : collect_spellcheck_error_data_in_file tokenize f long fileContent
      outfpExists cached overwrite error_data v_uri = res)
    (hok : res.outcome = Outcome.ok) :
    ∃ b, lookupEntry res.error_data v_uri = some b ∧ b.page_errors = none ∧
      ((overwrite || !outfpExists) = true →
        ∃ w, res.written = some w ∧ w.page_errors ≠ none ∧
          b = { w with page_errors := none }) ∧
      ((overwrite || !outfpExists) = false →
        res.written = none ∧ b = { cached with page_errors := none }) := by
  unfold collect_spellcheck_error_data_in_file at hres
  by_cases hov : (overwrite || !outfpExists) = true
  · rw [if_pos hov] at hres
    cases hc : calculate_error_rate tokenize f long (splitOffHeader fileContent) with
    | none =>
      rw [hc] at hres
      subst hres
      simp at hok
    | some r =>
      rw [hc] at hres
      subst hres
      refine ⟨_, lookupEntry_setEntry _ _ _, rfl, ?_, ?_⟩
      · intro _
        exact ⟨_, rfl, by simp, rfl⟩
      · intro hcontra
        rw [hov] at hcontra
        cases hcontra
  · rw [if_neg hov] at hres
    have hov' : (overwrite || !outfpExists) = false := by
      simpa using hov
    cases hpe : cached.page_errors with
    | none =>
      rw [hpe] at hres
      subst hres
      simp at hok
    | some l =>
      rw [hpe] at hres
      subst hres
      refine ⟨_, lookupEntry_setEntry _ _ _, rfl, ?_, ?_⟩
      · intro hcontra
        rw [hov'] at hcontra
        cases hcontra
      · intro _
        exact ⟨rfl, rfl⟩

theorem C5_witness :
    (collect_spellcheck_error_data_in_file wordTokenize (fun _ => true) 8 "x"
      false ⟨0, 0, 0, 0, 0, none⟩ true [] "B").outcome = Outcome.ok ∧
    (∃ b,
      lookupEntry (collect_spellcheck_error_data_in_file wordTokenize
        (fun _ => true) 8 "x" false ⟨0, 0, 0, 0, 0, none⟩ true [] "B").error_data
        "B" = some b ∧
      b.page_errors = none ∧
      ((true || !false) = true →
        ∃ w, (collect_spellcheck_error_data_in_file wordTokenize (fun _ => true)
            8 "x" false ⟨0, 0, 0, 0, 0, none⟩ true [] "B").written = some w ∧
          w.page_errors ≠ none ∧ b = { w with page_errors := none }) ∧
      ((true || !false) = false →
        (collect_spellcheck_error_data_in_file wordTokenize (fun _ => true) 8 "x"
            false ⟨0, 0, 0, 0, 0, none⟩ true [] "B").written = none ∧
          b = { (⟨0, 0, 0, 0, 0, none⟩ : BookData) with page_errors := none })) :=
  ⟨by decide,
   C5_page_errors_stripped wordTokenize (fun _ => true) 8 "x" false
     ⟨0, 0, 0, 0, 0, none⟩ true [] "B" _ rfl (by decide)⟩

/-- C10: on the cache-reuse path (the per-book file exists and overwrite
is off), when the persisted record has no `page_errors` key the call ends
with the `KeyError` of the unconditional `del`, but only after the loaded
record has been inserted into `error_data`: the mapping now contains the
entry (in particular it is not left unchanged when the key was absent
before the call). -/
theorem C10_keyerror_after_insert (tokenize : String → List String)
    (f : String → Bool) (long : Nat) (fileContent : String) (cached : BookData)
    (error_data : List (String × BookData)) (v_uri : String)
    (hpe : cached.page_errors = none) :
    (collect_spellcheck_error_data_in_file tokenize f long fileContent true
      cached false error_data v_uri).outcome = Outcome.keyError ∧
    lookupEntry (collect_spellcheck_error_data_in_file tokenize f long
      fileContent true cached false error_data v_uri).error_data v_uri
      = some cached ∧
    (lookupEntry error_data v_uri = none →
      (collect_spellcheck_error_data_in_file tokenize f long fileContent true
        cached false error_data v_uri).error_data
        = error_data ++ [(v_uri, cached)]) := by
  unfold collect_spellcheck_error_data_in_file
  simp only [Bool.or_false, Bool.not_true, Bool.false_or, if_neg, hpe]
  exact ⟨rfl, lookupEntry_setEntry _ _ _, fun h => setEntry_of_absent _ _ _ h⟩

theorem C10_witness :
    (⟨0, 0, 0, 0, 0, none⟩ : BookData).page_errors = none ∧
    ((collect_spellcheck_error_data_in_file wordTokenize (fun _ => true) 8 ""
        true ⟨0, 0, 0, 0, 0, none⟩ false [] "B").outcome = Outcome.keyError ∧
     lookupEntry (collect_spellcheck_error_data_in_file wordTokenize
        (fun _ => true) 8 "" true ⟨0, 0, 0, 0, 0, none⟩ false [] "B").error_data
        "B" = some ⟨0, 0, 0, 0, 0, none⟩ ∧
     (lookupEntry [] "B" = none →
       (collect_spellcheck_error_data_in_file wordTokenize (fun _ => true) 8 ""
          true ⟨0, 0, 0, 0, 0, none⟩ false [] "B").error_data
          = [] ++ [("B", ⟨0, 0, 0, 0, 0, none⟩)])) :=
  ⟨rfl,
   C10_keyerror_after_insert wordTokenize (fun _ => true) 8 ""
     ⟨0, 0, 0, 0, 0, none⟩ [] "B" rfl⟩

end OCRSpellcheck
